import Mathlib

/-!
# Verification of the `pyinit` core against its specification

This file gives a shallow embedding of the core of the `pyinit` project
manager (source: `src/pyinit/utils.py` and `src/pyinit/main.py`) and proves
or refutes the frozen claims about it.

Modelling conventions:

* A filesystem directory path is a list of path components from the root
  (the root itself is `[]`); `Path.parent` is `List.dropLast`, and the root
  is its own parent, exactly as for a resolved POSIX `pathlib.Path`.
* The filesystem itself is abstracted as a boolean predicate
  `hasMarker : List String → Bool` telling which directories contain a
  `pyproject.toml` regular file (this models `(dir / "pyproject.toml").is_file()`).
* TOML documents (the result of `tomllib.load`) are modelled by the
  inductive `TomlVal`; the top level is always a table, as `tomllib.load`
  guarantees.  Python's dynamic attribute/subscript errors (`AttributeError`,
  `TypeError`, `KeyError`), which the source does *not* catch, are modelled
  with `Except PyErr`; the two exception classes the source catches
  (`tomllib.TOMLDecodeError`, `FileNotFoundError`) are modelled by the
  `ReadResult.parseError` / `ReadResult.missing` states of the marker file.
* `str.strip()` is modelled over the ASCII whitespace characters
  `' '`, `'\t'`, `'\n'`, `'\r'`, `'\x0b'`, `'\x0c'` (Python additionally
  strips some rarer Unicode whitespace; no claim depends on those).
* `list(set(xs))` produces the distinct elements of `xs` in an order that
  CPython leaves unspecified; it is modelled by `List.dedup`, and every
  claim about the result is stated order-insensitively (membership /
  `toFinset`).
* The `argparse` command-line grammar of `main.py` is modelled by a
  token-level parser over the exact grammar declared in `main`.  Option
  prefix abbreviations (argparse `allow_abbrev`) are not modelled; `-h` /
  `--help` (which print help and exit 0) are modelled by the `help`
  outcome.  Usage errors (argparse `error`, which prints usage text to
  standard error and exits with status 2) are modelled by the outcome
  `CliOutcome.usage 2`.
-/

/-! ## Config locator: `utils.find_project_root` (utils.py lines 27-42) -/

/--
Model of `find_project_root`:

```
current_dir = Path.cwd().resolve()
while current_dir != current_dir.parent:
    if (current_dir / "pyproject.toml").is_file():
        return current_dir
    current_dir = current_dir.parent
if (current_dir / "pyproject.toml").is_file():
    return current_dir
return None
```

`p` is the resolved current working directory.  A path equals its parent
exactly when it is the root `[]`, so the `while` guard is the
nonemptiness of `p`.
-/
def find_project_root (hasMarker : List String → Bool) : List String → Option (List String)
  | [] => if hasMarker [] then some [] else none
  | c :: cs =>
    if hasMarker (c :: cs) then some (c :: cs)
    else find_project_root hasMarker (c :: cs).dropLast
termination_by p => p.length
decreasing_by simp [List.length_dropLast]

/--
The same loop, counting how many times the marker-file check
`(current_dir / "pyproject.toml").is_file()` is evaluated before the
function returns.
-/
def find_project_root_checks (hasMarker : List String → Bool) : List String → Nat
  | [] => 1
  | c :: cs =>
    if hasMarker (c :: cs) then 1
    else 1 + find_project_root_checks hasMarker (c :: cs).dropLast
termination_by p => p.length
decreasing_by simp [List.length_dropLast]

/--
Spec-side definition (from the spec's words, for comparison with the
source function): the chain of directories the locator is said to examine,
"starting at the resolved current working directory" and moving to the
parent until "the filesystem root is reached", the root "checked once
more".  Element at index `d` is the ancestor at depth `d`; the last
element is the root `[]`.
-/
def ancestorChain : List String → List (List String)
  | [] => [[]]
  | c :: cs => (c :: cs) :: ancestorChain (c :: cs).dropLast
termination_by p => p.length
decreasing_by simp [List.length_dropLast]

/-! ## Metadata reader: `utils.get_project_name`, `utils.get_project_dependencies`
    (utils.py lines 64-117) -/

/-- TOML values as produced by `tomllib.load` (restricted to the value
shapes the claims exercise: strings, integers, booleans, arrays, tables). -/
inductive TomlVal where
  | str (s : String)
  | int (n : Int)
  | bool (b : Bool)
  | arr (xs : List TomlVal)
  | table (kvs : List (String × TomlVal))

/-- A TOML table: `tomllib.load` always returns a dict at top level. -/
abbrev TomlTable := List (String × TomlVal)

/-- The state of the marker file as observed by `open` + `tomllib.load`:
missing (`FileNotFoundError`), unparseable (`tomllib.TOMLDecodeError`) —
the two exception classes the source catches — or successfully parsed
structured data. -/
inductive ReadResult where
  | missing
  | parseError
  | ok (data : TomlTable)

/-- Python exceptions that the source does *not* catch and that therefore
propagate to the caller. -/
inductive PyErr where
  | typeError
  | attributeError
  | keyError
deriving DecidableEq

/-- `dict` lookup: `d[k]` / `d.get(k)` on a parsed TOML table (first
binding wins, as in a Python dict there is at most one). -/
def tableGet (t : TomlTable) (k : String) : Option TomlVal :=
  (t.find? (fun kv => kv.1 == k)).map (fun kv => kv.2)

/-- Boolean substring test (Python's `in` on strings). -/
def listIsInfix (needle hay : List Char) : Bool :=
  hay.tails.any (fun t => needle.isPrefixOf t)

/-- Python's `k in v` for a string `k`: key membership for a dict,
element equality for a list (`str == non-str` is `False`), substring
test for a string, and `TypeError` for non-container values. -/
def pyContains (k : String) (v : TomlVal) : Except PyErr Bool :=
  match v with
  | .table t => .ok (t.any (fun kv => kv.1 == k))
  | .arr xs => .ok (xs.any (fun x => match x with | .str s => s == k | _ => false))
  | .str s => .ok (listIsInfix k.toList s.toList)
  | .int _ => .error .typeError
  | .bool _ => .error .typeError

/-- Python's `v[k]` for a string key `k`: dict lookup (raising `KeyError`
when absent), `TypeError` on lists, strings and scalars. -/
def pySubscript (v : TomlVal) (k : String) : Except PyErr TomlVal :=
  match v with
  | .table t =>
    match tableGet t k with
    | some x => .ok x
    | none => .error .keyError
  | _ => .error .typeError

/-- Python iteration as used by `list.extend(v)`: a list yields its
elements, a string its characters (as 1-character strings), a dict its
keys; integers and booleans raise `TypeError`. -/
def pyIter (v : TomlVal) : Except PyErr (List TomlVal) :=
  match v with
  | .arr xs => .ok xs
  | .str s => .ok (s.toList.map (fun c => .str (String.mk [c])))
  | .table t => .ok (t.map (fun kv => .str kv.1))
  | .int _ => .error .typeError
  | .bool _ => .error .typeError

/-- The loop `for group in ...: dependencies.extend(group)`. -/
def pyIterAll : List TomlVal → Except PyErr (List TomlVal)
  | [] => .ok []
  | v :: vs => do
    let xs ← pyIter v
    let rest ← pyIterAll vs
    pure (xs ++ rest)

/-- Python's `v.values()`: defined on dicts, `AttributeError` otherwise. -/
def pyValues (v : TomlVal) : Except PyErr (List TomlVal) :=
  match v with
  | .table t => .ok (t.map (fun kv => kv.2))
  | _ => .error .attributeError

/-- The version-operator characters of the regex `[<>=!~]` (utils.py
line 111). -/
def isOpChar (c : Char) : Bool :=
  c == '<' || c == '>' || c == '=' || c == '!' || c == '~'

/-- ASCII whitespace stripped by Python's `str.strip()`. -/
def isWsChar (c : Char) : Bool :=
  c == ' ' || c == '\t' || c == '\n' || c == '\r' || c == '\x0b' || c == '\x0c'

/-- `str.strip()` on the character list. -/
def stripChars (l : List Char) : List Char :=
  ((l.dropWhile isWsChar).reverse.dropWhile isWsChar).reverse

/-- `dep.strip()`. -/
def pyStrip (s : String) : String :=
  String.mk (stripChars s.data)

/-- `re.split(r"[<>=!~]", dep)[0]`: the first field of the split, i.e. the
longest prefix free of operator characters. -/
def splitFirst (l : List Char) : List Char :=
  l.takeWhile (fun c => !isOpChar c)

/-- `re.split(r"[<>=!~]", dep)[0].strip()` (utils.py line 111). -/
def cleanName (s : String) : String :=
  pyStrip (String.mk (splitFirst s.data))

/-- The comprehension of utils.py lines 110-112:
`[re.split(r"[<>=!~]", dep)[0].strip() for dep in dependencies if dep.strip()]`.
Evaluating `dep.strip()` on a non-string raises `AttributeError`, which
the surrounding `try` does not catch. -/
def cleanDeps : List TomlVal → Except PyErr (List String)
  | [] => .ok []
  | .str s :: rest => do
    let tail ← cleanDeps rest
    if pyStrip s = "" then pure tail else pure (cleanName s :: tail)
  | _ :: _ => .error .attributeError

/--
Model of `get_project_name` (utils.py lines 64-81):

```
try:
    with open(pyproject_path, "rb") as file:
        data = tomllib.load(file)
    return data.get("project", {}).get("name")
except (tomllib.TOMLDecodeError, FileNotFoundError):
    return None
```

`data.get("project", {})` yields `{}` when the key is absent, whose
`.get("name")` is `None`; when `data["project"]` is not a dict, the
`.get` attribute access raises `AttributeError`, which is not caught.
The `name` value is returned as-is (Python does not check it is a
string).
-/
def get_project_name (r : ReadResult) : Except PyErr (Option TomlVal) :=
  match r with
  | .missing => .ok none
  | .parseError => .ok none
  | .ok data =>
    match tableGet data "project" with
    | none => .ok none
    | some (.table t) => .ok (tableGet t "name")
    | some _ => .error .attributeError

/--
The accumulation and cleaning part of `get_project_dependencies`
(utils.py lines 95-112): gather `project.dependencies`, extend with
every group of `project.optional-dependencies`, then clean the non-blank
entries.  The guard `"project" in data and "dependencies" in
data["project"]` is modelled by matching `tableGet data "project"` (the
top level is a dict, so `in` is key membership and the subsequent
subscript cannot fail) and then asking `pyContains` on the value, which
mirrors Python's `in` on arbitrary values.
-/
def collect_dependencies (data : TomlTable) : Except PyErr (List String) := do
  let part1 ←
    match tableGet data "project" with
    | some pv => do
      let b ← pyContains "dependencies" pv
      if b then do
        let v ← pySubscript pv "dependencies"
        pyIter v
      else pure []
    | none => pure []
  let part2 ←
    match tableGet data "project" with
    | some pv => do
      let b ← pyContains "optional-dependencies" pv
      if b then do
        let ov ← pySubscript pv "optional-dependencies"
        let groups ← pyValues ov
        pyIterAll groups
      else pure []
    | none => pure []
  cleanDeps (part1 ++ part2)

/-- Model of `get_project_dependencies` (utils.py lines 84-117): a
missing or unparseable marker file yields `[]` (the caught exceptions);
otherwise the collected, cleaned entries are returned deduplicated —
`list(set(cleaned_deps))`, modelled by `List.dedup` since the element
order of a CPython `set` is unspecified. -/
def get_project_dependencies (r : ReadResult) : Except PyErr (List String) :=
  match r with
  | .missing => .ok []
  | .parseError => .ok []
  | .ok data => do
    let cleaned ← collect_dependencies data
    pure cleaned.dedup

/-! ## Command dispatcher: `main.main` (main.py lines 25-156)

The grammar is exactly the one `main` declares through `argparse`
(main.py lines 27-106); the pass-through pre-scan is main.py lines
108-116; dispatch is the `elif` chain of lines 120-156.

Abstractions, stated once: argparse option-prefix abbreviation
(`allow_abbrev`) and the bare `--` separator are not modelled, and the
contiguity of `nargs="+"` consumption is relaxed (both sides produce a
usage error on the inputs where they differ in shape).  `-h`/`--help`
print help and exit 0 (`ParseRes.help`); `parser.error` prints usage text
to standard error and exits 2 (`CliOutcome.usage 2`). -/

/-- `passthrough_commands = ["run", "test", "lint"]` (main.py line 108). -/
def passthrough_commands : List String := ["run", "test", "lint"]

/--
The pre-scan of main.py lines 109-116:

```
main_args = sys.argv[1:]
sub_args = []
for i, arg in enumerate(main_args):
    if arg in passthrough_commands:
        sub_args = main_args[i + 1:]
        main_args = main_args[:i + 1]
        break
```

returning the pair `(main_args, sub_args)`.
-/
def split_passthrough : List String → List String × List String
  | [] => ([], [])
  | a :: rest =>
    if passthrough_commands.contains a then ([a], rest)
    else
      let ms := split_passthrough rest
      (a :: ms.1, ms.2)

/-- The eighteen verbs registered with `subparsers.add_parser`. -/
def verbList : List String :=
  ["new", "run", "add", "build", "init", "test", "lock", "format", "venv",
   "lint", "graph", "clean", "bump", "update", "scan", "dockerize", "env",
   "add-hooks"]

/-- The parsed namespace (`args`) on a successful parse: one constructor
per verb, carrying the fields that verb declares. -/
inductive Args where
  | new (project_name template : String)
  | run
  | add (module_name : String)
  | build
  | init
  | test
  | lock
  | format
  | venv (venv_command : String)
  | lint
  | graph
  | clean
  | bump (part : String)
  | update (upgrade : Bool)
  | scan
  | dockerize
  | env_set (vars : List String)
  | add_hooks
deriving DecidableEq

/-- Result of `parser.parse_args(main_args)`: a parsed namespace, a usage
error (stderr + exit 2), or a help exit (stdout + exit 0). -/
inductive ParseRes where
  | ok (a : Args)
  | usage
  | help
deriving DecidableEq

/-- The orchestration routine called by the `elif` chain, with the
arguments it receives.  Constructors are named after the routines
imported at main.py lines 4-21. -/
inductive Invocation where
  | create_project (project_name template : String)
  | start_project (sub_args : List String)
  | install_module (module_name : String)
  | install_project
  | initialize_project
  | run_tests (sub_args : List String)
  | lock_dependencies
  | format_project
  | manage_venv (venv_command : String)
  | lint_project (sub_args : List String)
  | show_dependency_graph
  | clean_project
  | bump_project_version (part : String)
  | update_dependencies (upgrade : Bool)
  | scan_project
  | dockerize_project
  | manage_env (vars : List String)
  | add_git_hooks
deriving DecidableEq

/-- Overall outcome of one CLI invocation: exactly one routine invoked,
or a usage error (usage text on standard error, nonzero exit code), or a
help exit. -/
inductive CliOutcome where
  | invoke (inv : Invocation)
  | usage (exitCode : Nat)
  | help
deriving DecidableEq

/-- `-h` / `--help`. -/
def isHelp (t : String) : Bool :=
  t == "-h" || t == "--help"

/-- `str.startswith(pre)` (modelled on the character list, which the
kernel can evaluate). -/
def pyStartsWith (s pre : String) : Bool :=
  pre.data.isPrefixOf s.data

/-- Subparser with no positionals and no options (run, build, init, test,
lock, format, lint, graph, clean, scan, dockerize, add-hooks, and the
venv/env leaf sub-verbs): `-h` anywhere exits with help; any other token
is an unrecognized extra and yields a usage error at the end of
parsing. -/
def parseNoArgSub (xs : List String) (a : Args) : ParseRes :=
  if xs.any isHelp then .help
  else if xs.isEmpty then .ok a
  else .usage

/-- The `new` subparser: required positional `project_name`, option
`-t` or `--template` with one value (default `"app"`).  `name?` is the
positional seen so far, `tpl` the current template value, `ex` whether an
unrecognized extra has been seen. -/
def parseNew : List String → Option String → String → Bool → ParseRes
  | [], name?, tpl, ex =>
    match name? with
    | none => .usage
    | some n => if ex then .usage else .ok (.new n tpl)
  | t :: rest, name?, tpl, ex =>
    if isHelp t then .help
    else if t == "-t" || t == "--template" then
      match rest with
      | [] => .usage
      | v :: rest2 =>
        if pyStartsWith v "-" then .usage
        else parseNew rest2 name? v ex
    else if pyStartsWith t "--template=" then
      parseNew rest name? (t.drop 11) ex
    else if pyStartsWith t "--" then
      parseNew rest name? tpl true
    else if pyStartsWith t "-t" && t.length > 2 then
      parseNew rest name? (t.drop 2) ex
    else if pyStartsWith t "-" then
      parseNew rest name? tpl true
    else
      match name? with
      | none => parseNew rest (some t) tpl ex
      | some _ => parseNew rest name? tpl true

/-- The `add` subparser: required positional `module_name`, no options. -/
def parseAdd : List String → Option String → Bool → ParseRes
  | [], name?, ex =>
    match name? with
    | none => .usage
    | some m => if ex then .usage else .ok (.add m)
  | t :: rest, name?, ex =>
    if isHelp t then .help
    else if pyStartsWith t "-" then parseAdd rest name? true
    else
      match name? with
      | none => parseAdd rest (some t) ex
      | some _ => parseAdd rest name? true

/-- The `venv` subparser: required sub-verb `create` or `remove` (its own
`add_subparsers` with `required=True`); an invalid choice aborts
immediately, a missing one is an error at the end of parsing. -/
def parseVenv : List String → Bool → ParseRes
  | [], _ => .usage
  | t :: rest, ex =>
    if isHelp t then .help
    else if pyStartsWith t "-" then parseVenv rest true
    else if t == "create" || t == "remove" then
      if rest.any isHelp then .help
      else if ex || !rest.isEmpty then .usage
      else .ok (.venv t)
    else .usage

/-- The `bump` subparser: required positional `part` with
`choices=["major", "minor", "patch"]`; an invalid choice aborts
immediately. -/
def parseBump : List String → Option String → Bool → ParseRes
  | [], part?, ex =>
    match part? with
    | none => .usage
    | some p => if ex then .usage else .ok (.bump p)
  | t :: rest, part?, ex =>
    if isHelp t then .help
    else if pyStartsWith t "-" then parseBump rest part? true
    else
      match part? with
      | none =>
        if t == "major" || t == "minor" || t == "patch" then
          parseBump rest (some t) ex
        else .usage
      | some _ => parseBump rest part? true

/-- The `update` subparser: flag `--upgrade` (`store_true`). -/
def parseUpdate : List String → Bool → Bool → ParseRes
  | [], upgrade, ex => if ex then .usage else .ok (.update upgrade)
  | t :: rest, upgrade, ex =>
    if isHelp t then .help
    else if t == "--upgrade" then parseUpdate rest true ex
    else parseUpdate rest upgrade true

/-- The `set` sub-verb of `env`: `vars` with `nargs="+"` (at least one
value); option-like tokens are unrecognized extras. -/
def parseEnvSet : List String → List String → Bool → ParseRes
  | [], vars, ex =>
    if vars.isEmpty then .usage
    else if ex then .usage
    else .ok (.env_set vars.reverse)
  | t :: rest, vars, ex =>
    if isHelp t then .help
    else if pyStartsWith t "-" then parseEnvSet rest vars true
    else parseEnvSet rest (t :: vars) ex

/-- The `env` subparser: required sub-verb `set`. -/
def parseEnv : List String → Bool → ParseRes
  | [], _ => .usage
  | t :: rest, ex =>
    if isHelp t then .help
    else if pyStartsWith t "-" then parseEnv rest true
    else if t == "set" then parseEnvSet rest [] ex
    else .usage

/-- Dispatch on the chosen verb to its subparser, which receives every
token after the verb (a subparsers positional consumes the whole
remainder).  An unknown verb is an invalid choice: usage error. -/
def parseSub (t : String) (rest : List String) : ParseRes :=
  match t with
  | "new" => parseNew rest none "app" false
  | "run" => parseNoArgSub rest .run
  | "add" => parseAdd rest none false
  | "build" => parseNoArgSub rest .build
  | "init" => parseNoArgSub rest .init
  | "test" => parseNoArgSub rest .test
  | "lock" => parseNoArgSub rest .lock
  | "format" => parseNoArgSub rest .format
  | "venv" => parseVenv rest false
  | "lint" => parseNoArgSub rest .lint
  | "graph" => parseNoArgSub rest .graph
  | "clean" => parseNoArgSub rest .clean
  | "bump" => parseBump rest none false
  | "update" => parseUpdate rest false false
  | "scan" => parseNoArgSub rest .scan
  | "dockerize" => parseNoArgSub rest .dockerize
  | "env" => parseEnv rest false
  | "add-hooks" => parseNoArgSub rest .add_hooks
  | _ => .usage

/-- `parser.parse_args(main_args)` for the top-level parser: its only
positional is the required subparsers action, its only option `-h`.  `ex`
records whether an unrecognized top-level option has been seen; if so, a
successful subparse still ends in a usage error (extras), while a help
exit stands. -/
def parseTop : List String → Bool → ParseRes
  | [], _ => .usage
  | t :: rest, ex =>
    if isHelp t then .help
    else if pyStartsWith t "-" then parseTop rest true
    else
      let res := parseSub t rest
      if ex then
        match res with
        | .help => .help
        | _ => .usage
      else res

/-- The `elif` chain of main.py lines 120-156: exactly one routine per
parsed namespace; `run`, `test` and `lint` receive `sub_args`. -/
def dispatch (a : Args) (sub_args : List String) : Invocation :=
  match a with
  | .new n tpl => .create_project n tpl
  | .run => .start_project sub_args
  | .add m => .install_module m
  | .build => .install_project
  | .init => .initialize_project
  | .test => .run_tests sub_args
  | .lock => .lock_dependencies
  | .format => .format_project
  | .venv c => .manage_venv c
  | .lint => .lint_project sub_args
  | .graph => .show_dependency_graph
  | .clean => .clean_project
  | .bump p => .bump_project_version p
  | .update u => .update_dependencies u
  | .scan => .scan_project
  | .dockerize => .dockerize_project
  | .env_set vs => .manage_env vs
  | .add_hooks => .add_git_hooks

/-- The pass-through token list a routine receives, when it takes one. -/
def passArgs (inv : Invocation) : Option (List String) :=
  match inv with
  | .start_project a => some a
  | .run_tests a => some a
  | .lint_project a => some a
  | _ => none

/-- The CLI verb that selects a given routine. -/
def invVerb (inv : Invocation) : String :=
  match inv with
  | .create_project _ _ => "new"
  | .start_project _ => "run"
  | .install_module _ => "add"
  | .install_project => "build"
  | .initialize_project => "init"
  | .run_tests _ => "test"
  | .lock_dependencies => "lock"
  | .format_project => "format"
  | .manage_venv _ => "venv"
  | .lint_project _ => "lint"
  | .show_dependency_graph => "graph"
  | .clean_project => "clean"
  | .bump_project_version _ => "bump"
  | .update_dependencies _ => "update"
  | .scan_project => "scan"
  | .dockerize_project => "dockerize"
  | .manage_env _ => "env"
  | .add_git_hooks => "add-hooks"

/-- `main`: pre-scan, structured parse of the head, dispatch.  A usage
error carries argparse's exit status 2. -/
def pyinit_main (argv : List String) : CliOutcome :=
  let ms := split_passthrough argv
  match parseTop ms.1 false with
  | .ok a => .invoke (dispatch a ms.2)
  | .usage => .usage 2
  | .help => .help

theorem find_project_root_eq_find (hasMarker : List String → Bool) (p : List String) :
    find_project_root hasMarker p = (ancestorChain p).find? hasMarker := by
  generalize hn : p.length = n
  induction n generalizing p with
  | zero =>
    have : p = [] := List.length_eq_zero.mp hn
    subst this
    simp [find_project_root, ancestorChain, List.find?]
  | succ n ih =>
    match p with
    | [] => simp at hn
    | c :: cs =>
      rw [find_project_root, ancestorChain, List.find?]
      by_cases h : hasMarker (c :: cs)
      · simp [h]
      · simp only [h, if_neg, Bool.false_eq_true, ite_false]
        apply ih
        simp at hn
        simp [List.length_dropLast, hn]

theorem ancestorChain_length (p : List String) :
    (ancestorChain p).length = p.length + 1 := by
  generalize hn : p.length = n
  induction n generalizing p with
  | zero =>
    have : p = [] := List.length_eq_zero.mp hn
    subst this
    simp [ancestorChain]
  | succ n ih =>
    match p with
    | [] => simp at hn
    | c :: cs =>
      have hd : (c :: cs).dropLast.length = n := by
        simp only [List.length_cons] at hn
        simp only [List.length_dropLast, List.length_cons]
        omega
      rw [ancestorChain]
      simp only [List.length_cons, ih _ hd, hd]

/-- **C1.** `find_project_root` returns the nearest ancestor (the working
directory itself included, proceeding through parents to the root, which
is checked once) containing the marker file, and `none` exactly when no
ancestor in that chain contains it. -/
theorem C1_find_project_root_nearest_ancestor
    (hasMarker : List String → Bool) (p : List String) :
    find_project_root hasMarker p = (ancestorChain p).find? hasMarker ∧
    (find_project_root hasMarker p = none ↔
      ∀ d ∈ ancestorChain p, hasMarker d = false) := by
  refine ⟨find_project_root_eq_find hasMarker p, ?_⟩
  rw [find_project_root_eq_find hasMarker p, List.find?_eq_none]
  constructor
  · intro h d hd
    exact Bool.not_eq_true _ |>.mp (h d hd)
  · intro h d hd
    simp [h d hd]

theorem find_project_root_checks_le (hasMarker : List String → Bool) (p : List String) :
    find_project_root_checks hasMarker p ≤ p.length + 1 := by
  generalize hn : p.length = n
  induction n generalizing p with
  | zero =>
    obtain rfl := List.length_eq_zero.mp hn
    simp [find_project_root_checks]
  | succ n ih =>
    match p with
    | [] => simp at hn
    | c :: cs =>
      have hd : (c :: cs).dropLast.length = n := by
        simp only [List.length_cons] at hn
        simp only [List.length_dropLast, List.length_cons]
        omega
      rw [find_project_root_checks]
      by_cases h : hasMarker (c :: cs)
      · simp [h]
      · simp only [h, Bool.false_eq_true, ite_false]
        have := ih _ hd
        simp only [List.length_cons] at hn ⊢
        omega

theorem find_project_root_checks_found
    (hasMarker : List String → Bool) (p : List String)
    (pre suf : List (List String)) (x : List String)
    (hchain : ancestorChain p = pre ++ x :: suf)
    (hpre : ∀ y ∈ pre, hasMarker y = false)
    (hx : hasMarker x = true) :
    find_project_root hasMarker p = some x ∧
    find_project_root_checks hasMarker p = pre.length + 1 := by
  generalize hn : p.length = n
  induction n generalizing p pre suf with
  | zero =>
    obtain rfl := List.length_eq_zero.mp hn
    rw [ancestorChain] at hchain
    match pre, hchain with
    | [], hchain =>
      have hx0 : x = [] := by
        simpa using congrArg (fun l => l.headI) hchain.symm
      subst hx0
      simp [find_project_root, find_project_root_checks, hx]
    | a :: pre2, hchain =>
      exfalso
      have : (1 : Nat) = pre2.length + 1 + suf.length + 1 := by
        simpa [List.length_append] using congrArg List.length hchain
      omega
  | succ n ih =>
    match p with
    | [] => simp at hn
    | c :: cs =>
      have hd : (c :: cs).dropLast.length = n := by
        simp only [List.length_cons] at hn
        simp only [List.length_dropLast, List.length_cons]
        omega
      rw [ancestorChain] at hchain
      match pre, hchain with
      | [], hchain =>
        have hx0 : x = c :: cs := (List.cons.injEq _ _ _ _ |>.mp hchain.symm).1
        subst hx0
        rw [find_project_root, find_project_root_checks]
        simp [hx]
      | a :: pre2, hchain =>
        have ha : a = c :: cs := (List.cons.injEq _ _ _ _ |>.mp hchain.symm).1
        have htail : ancestorChain (c :: cs).dropLast = pre2 ++ x :: suf :=
          (List.cons.injEq _ _ _ _ |>.mp hchain).2
        have hp : hasMarker (c :: cs) = false := by
          rw [← ha]; exact hpre a (by simp)
        have hpre2 : ∀ y ∈ pre2, hasMarker y = false := fun y hy =>
          hpre y (by simp [hy])
        obtain ⟨h1, h2⟩ := ih _ pre2 suf htail hpre2 hd
        rw [find_project_root, find_project_root_checks]
        simp only [hp, Bool.false_eq_true, ite_false]
        exact ⟨h1, by simp [h2]; omega⟩

/-- **C8.** The locator loop terminates after at most `length + 1`
marker-file checks on any finite path; and when the nearest marker lies at
depth `d` above the working directory (`d = pre.length` ancestors below it
are marker-free), it returns exactly that ancestor after `d + 1 ≤ d + 1`
checks. -/
theorem C8_find_project_root_terminates_in_depth_checks
    (hasMarker : List String → Bool) (p : List String)
    (pre suf : List (List String)) (x : List String)
    (hchain : ancestorChain p = pre ++ x :: suf)
    (hpre : ∀ y ∈ pre, hasMarker y = false)
    (hx : hasMarker x = true) :
    find_project_root_checks hasMarker p ≤ p.length + 1 ∧
    find_project_root hasMarker p = some x ∧
    find_project_root_checks hasMarker p = pre.length + 1 ∧
    pre.length + 1 ≤ pre.length + 1 := by
  obtain ⟨h1, h2⟩ :=
    find_project_root_checks_found hasMarker p pre suf x hchain hpre hx
  exact ⟨find_project_root_checks_le hasMarker p, h1, h2, Nat.le_refl _⟩

/-- Witness for C8 at a concrete input: working directory `/a` (one
component), marker only at the filesystem root, i.e. depth `d = 1`. -/
theorem C8_witness :
    find_project_root (fun d => decide (d = [])) ["a"] = some [] ∧
    find_project_root_checks (fun d => decide (d = [])) ["a"] = 2 := by
  obtain ⟨-, h2, h3, -⟩ :=
    C8_find_project_root_terminates_in_depth_checks
      (fun d => decide (d = [])) ["a"] [["a"]] [] []
      (by simp [ancestorChain]) (by decide) (by decide)
  exact ⟨h2, h3⟩

theorem split_passthrough_append (l : List String) :
    (split_passthrough l).1 ++ (split_passthrough l).2 = l := by
  induction l with
  | nil => rfl
  | cons a rest ih =>
    rw [split_passthrough]
    by_cases h : a ∈ passthrough_commands
    · simp [h]
    · simp [h, ih]

theorem split_passthrough_marker (pre post : List String) (mk : String)
    (hpre : ∀ x ∈ pre, x ∉ passthrough_commands)
    (hmk : mk ∈ passthrough_commands) :
    split_passthrough (pre ++ mk :: post) = (pre ++ [mk], post) := by
  induction pre with
  | nil =>
    rw [List.nil_append, split_passthrough]
    simp [hmk]
  | cons a pre2 ih =>
    have ha : a ∉ passthrough_commands := hpre a (by simp)
    have hpre2 : ∀ x ∈ pre2, x ∉ passthrough_commands :=
      fun x hx => hpre x (by simp [hx])
    rw [List.cons_append, split_passthrough]
    simp [ha, ih hpre2]

theorem split_passthrough_no_marker (l : List String)
    (h : ∀ x ∈ l, x ∉ passthrough_commands) :
    split_passthrough l = (l, []) := by
  induction l with
  | nil => rfl
  | cons a rest ih =>
    have ha : a ∉ passthrough_commands := h a (by simp)
    rw [split_passthrough]
    simp [ha, ih (fun x hx => h x (by simp [hx]))]

/-- **C9.** The pre-scan is a lossless split of the argument vector: head
and tail concatenate back to the original; when the vector decomposes at
its first allow-list token, the head is exactly the tokens up to and
including that token (so the head ends with it) and the tail is
everything after it; with no allow-list token present, nothing is set
aside. -/
theorem C9_split_passthrough_lossless (argv : List String) :
    (split_passthrough argv).1 ++ (split_passthrough argv).2 = argv ∧
    (∀ pre mk post, argv = pre ++ mk :: post →
      (∀ x ∈ pre, x ∉ passthrough_commands) →
      mk ∈ passthrough_commands →
      split_passthrough argv = (pre ++ [mk], post) ∧
      (split_passthrough argv).1.getLast? = some mk) ∧
    ((∀ x ∈ argv, x ∉ passthrough_commands) →
      split_passthrough argv = (argv, [])) := by
  refine ⟨split_passthrough_append argv, ?_, split_passthrough_no_marker argv⟩
  intro pre mk post hdec hpre hmk
  subst hdec
  have hs := split_passthrough_marker pre post mk hpre hmk
  refine ⟨hs, ?_⟩
  rw [hs]
  exact List.getLast?_concat _

/-- Witness for C9 at the concrete vector `["a", "lint", "b"]`. -/
theorem C9_witness :
    split_passthrough ["a", "lint", "b"] = (["a", "lint"], ["b"]) ∧
    (split_passthrough ["a", "lint", "b"]).1.getLast? = some "lint" := by
  have h := (C9_split_passthrough_lossless ["a", "lint", "b"]).2.1
    ["a"] "lint" ["b"] rfl (by decide) (by decide)
  exact h

theorem pyinit_main_invoke (argv : List String) (inv : Invocation)
    (h : pyinit_main argv = .invoke inv) :
    ∃ a, parseTop (split_passthrough argv).1 false = .ok a ∧
      inv = dispatch a (split_passthrough argv).2 := by
  cases hp : parseTop (split_passthrough argv).1 false with
  | ok a =>
    refine ⟨a, rfl, ?_⟩
    simp only [pyinit_main, hp] at h
    simpa using h.symm
  | usage =>
    simp only [pyinit_main, hp] at h
    simp at h
  | help =>
    simp only [pyinit_main, hp] at h
    simp at h

theorem passArgs_dispatch (a : Args) (s x : List String)
    (h : passArgs (dispatch a s) = some x) :
    x = s ∧ invVerb (dispatch a s) ∈ passthrough_commands := by
  cases a <;> simp_all [dispatch, passArgs, invVerb, passthrough_commands]

theorem main_pass_forward (argv : List String) (inv : Invocation) (x : List String)
    (h : pyinit_main argv = .invoke inv) (hp : passArgs inv = some x) :
    invVerb inv ∈ passthrough_commands ∧ x = (split_passthrough argv).2 := by
  obtain ⟨a, -, rfl⟩ := pyinit_main_invoke argv inv h
  obtain ⟨h1, h2⟩ := passArgs_dispatch a _ x hp
  exact ⟨h2, h1⟩

/-- **C4, counterexample.** In `["add", "lint", "x"]` the first allow-list
token `"lint"` is present (as the positional argument of `add`), so the
claim requires the token `"x"` after it to be forwarded to the invoked
routine; but the invoked routine is `install_module "lint"`, which
receives no pass-through tokens at all: `"x"` is silently discarded. -/
theorem C4_counterexample :
    split_passthrough ["add", "lint", "x"] = (["add", "lint"], ["x"]) ∧
    pyinit_main ["add", "lint", "x"] = .invoke (.install_module "lint") ∧
    passArgs (.install_module "lint") = none :=
  ⟨by decide, by decide, by decide⟩

/-- **C4, amended.** Every token after the first allow-list token is
excluded from structured parsing (the parsed head is exactly the tokens
up to and including that token); whenever the invoked routine takes
pass-through tokens it receives exactly the tokens after that first
occurrence; and `lint --select E501 extra.py` forwards exactly
`["--select", "E501", "extra.py"]` to the lint routine. -/
theorem C4_passthrough_excluded_and_forwarded :
    pyinit_main ["lint", "--select", "E501", "extra.py"] =
      .invoke (.lint_project ["--select", "E501", "extra.py"]) ∧
    (∀ argv pre mk post, argv = pre ++ mk :: post →
      mk ∈ passthrough_commands →
      (∀ x ∈ pre, x ∉ passthrough_commands) →
      (split_passthrough argv).1 = pre ++ [mk] ∧
      (∀ inv x, pyinit_main argv = .invoke inv → passArgs inv = some x →
        x = post)) := by
  refine ⟨by decide, ?_⟩
  intro argv pre mk post hdec hmk hpre
  subst hdec
  have hs := split_passthrough_marker pre post mk hpre hmk
  refine ⟨by rw [hs], ?_⟩
  intro inv x hinv hx
  have := (main_pass_forward _ inv x hinv hx).2
  rw [hs] at this
  exact this

/-- Witness for C4 at the vector `["run", "--zzz"]` (marker at index 0):
the parsed head is `["run"]` and the routine receives `["--zzz"]`. -/
theorem C4_witness :
    (split_passthrough ["run", "--zzz"]).1 = ["run"] ∧
    (["--zzz"] : List String) = ["--zzz"] := by
  have h := (C4_passthrough_excluded_and_forwarded).2
    ["run", "--zzz"] [] "run" ["--zzz"] rfl (by decide) (by decide)
  exact ⟨h.1, h.2 (.start_project ["--zzz"]) ["--zzz"] (by decide) (by decide)⟩

/-- **C5, counterexample.** For `["new", "test", "x"]` the pre-scan sets
aside the non-empty pass-through list `["x"]` (so `"x"` never reaches
structured parsing), yet the invocation parses successfully with active
verb `new`, which is not in the allow-list: the invariant "pass-through
tokens are only defined (non-empty) when the active verb is one of
run/test/lint" fails. -/
theorem C5_counterexample :
    split_passthrough ["new", "test", "x"] = (["new", "test"], ["x"]) ∧
    pyinit_main ["new", "test", "x"] = .invoke (.create_project "test" "app") ∧
    invVerb (.create_project "test" "app") ∉ passthrough_commands ∧
    passArgs (.create_project "test" "app") = none :=
  ⟨by decide, by decide, by decide, by decide⟩

/-- **C5, amended.** Exactly one routine is invoked per successful parse
(the outcome determines the invocation uniquely); pass-through tokens are
*forwarded* to a routine only when the active verb is in the allow-list
run/test/lint, and such a routine receives exactly the set-aside tail;
for any other verb the set-aside tokens are discarded unparsed rather
than passed to the routine. -/
theorem C5_one_routine_passthrough_only_allowlist :
    (∀ argv inv inv2, pyinit_main argv = .invoke inv →
      pyinit_main argv = .invoke inv2 → inv = inv2) ∧
    (∀ argv inv x, pyinit_main argv = .invoke inv → passArgs inv = some x →
      invVerb inv ∈ passthrough_commands ∧ x = (split_passthrough argv).2) ∧
    (∀ argv inv, pyinit_main argv = .invoke inv →
      invVerb inv ∉ passthrough_commands → passArgs inv = none) := by
  refine ⟨?_, ?_, ?_⟩
  · intro argv inv inv2 h1 h2
    rw [h1] at h2
    exact (CliOutcome.invoke.injEq _ _ |>.mp h2)
  · intro argv inv x h hp
    exact main_pass_forward argv inv x h hp
  · intro argv inv h hv
    cases hp : passArgs inv with
    | none => rfl
    | some x => exact absurd (main_pass_forward argv inv x h hp).1 hv

/-- Witness for C5 at the vector `["lint"]`. -/
theorem C5_witness :
    invVerb (.lint_project []) ∈ passthrough_commands ∧
    ([] : List String) = (split_passthrough ["lint"]).2 :=
  (C5_one_routine_passthrough_only_allowlist).2.1 ["lint"]
    (.lint_project []) [] (by decide) (by decide)

theorem parseSub_unknown (t : String) (rest : List String) (h : t ∉ verbList) :
    parseSub t rest = .usage := by
  unfold parseSub
  split <;> simp_all [verbList]

/-- **C7.** An unknown verb (the first structurally parsed token, when it
is not option-like) yields a usage error — argparse's usage text on
standard error with exit status 2, a nonzero code — and no routine is
invoked; likewise `venv` and `env`, whose sub-verbs are required, yield a
usage error when invoked without one. -/
theorem C7_unknown_verb_and_missing_subverb :
    (∀ argv t m2 s, split_passthrough argv = (t :: m2, s) →
      pyStartsWith t "-" = false → t ∉ verbList →
      pyinit_main argv = .usage 2 ∧ ∀ inv, pyinit_main argv ≠ .invoke inv) ∧
    pyinit_main ["venv"] = .usage 2 ∧
    pyinit_main ["env"] = .usage 2 ∧
    (2 : Nat) ≠ 0 := by
  refine ⟨?_, by decide, by decide, by decide⟩
  intro argv t m2 s hsplit hdash hverb
  have h1 : t ≠ "-h" := by
    rintro rfl
    exact absurd hdash (by decide)
  have h2 : t ≠ "--help" := by
    rintro rfl
    exact absurd hdash (by decide)
  have hhelp : isHelp t = false := by
    simp [isHelp, h1, h2]
  have hmain : pyinit_main argv = .usage 2 := by
    have hparse : parseTop (t :: m2) false = .usage := by
      rw [parseTop]
      simp [hhelp, hdash, parseSub_unknown t m2 hverb]
    simp only [pyinit_main, hsplit]
    simp [hparse]
  exact ⟨hmain, fun inv h => by rw [hmain] at h; exact CliOutcome.noConfusion h⟩

/-- Witness for C7 at the unknown verb `bogus`. -/
theorem C7_witness : pyinit_main ["bogus"] = .usage 2 :=
  ((C7_unknown_verb_and_missing_subverb).1 ["bogus"] "bogus" [] []
    (by decide) (by decide) (by decide)).1

theorem takeWhile_append_stop (p : Char → Bool) (a b : List Char) (c : Char)
    (ha : ∀ x ∈ a, p x = true) (hc : p c = false) :
    (a ++ c :: b).takeWhile p = a := by
  induction a with
  | nil => simp [List.takeWhile, hc]
  | cons x a2 ih =>
    have hx : p x = true := ha x (by simp)
    rw [List.cons_append, List.takeWhile]
    simp [hx, ih (fun y hy => ha y (by simp [hy]))]

theorem takeWhile_all (p : Char → Bool) (l : List Char)
    (h : ∀ x ∈ l, p x = true) : l.takeWhile p = l := by
  induction l with
  | nil => rfl
  | cons x l2 ih =>
    have hx : p x = true := h x (by simp)
    rw [List.takeWhile]
    simp [hx, ih (fun y hy => h y (by simp [hy]))]

theorem dropWhile_all_append (p : Char → Bool) (a l : List Char)
    (ha : ∀ x ∈ a, p x = true) :
    (a ++ l).dropWhile p = l.dropWhile p := by
  induction a with
  | nil => rfl
  | cons x a2 ih =>
    have hx : p x = true := ha x (by simp)
    rw [List.cons_append, List.dropWhile]
    simp [hx, ih (fun y hy => ha y (by simp [hy]))]

theorem ws_not_op (c : Char) (h : isWsChar c = true) : isOpChar c = false := by
  simp only [isWsChar, Bool.or_eq_true, beq_iff_eq] at h
  rcases h with ((((h | h) | h) | h) | h) | h <;> subst h <;> decide

theorem op_not_ws (c : Char) (h : isOpChar c = true) : isWsChar c = false := by
  simp only [isOpChar, Bool.or_eq_true, beq_iff_eq] at h
  rcases h with (((h | h) | h) | h) | h <;> subst h <;> decide

theorem stripChars_all_ws (w : List Char) (h : ∀ x ∈ w, isWsChar x = true) :
    stripChars w = [] := by
  unfold stripChars
  rw [List.dropWhile_eq_nil_iff.mpr (fun x hx => h x hx)]
  rfl

/-- **C2.** The cleaned dependency name: for a specifier that decomposes
at its first operator character, it is the part before that character,
stripped; for a specifier containing no operator character, it is the
stripped original. -/
theorem C2_cleanName_before_first_operator :
    (∀ (s : String) (a b : List Char) (c : Char),
      s.data = a ++ c :: b → isOpChar c = true →
      (∀ x ∈ a, isOpChar x = false) →
      cleanName s = pyStrip (String.mk a)) ∧
    (∀ s : String, (∀ x ∈ s.data, isOpChar x = false) →
      cleanName s = pyStrip s) := by
  constructor
  · intro s a b c hdec hc ha
    unfold cleanName splitFirst
    rw [hdec, takeWhile_append_stop _ a b c
      (fun x hx => by simp [ha x hx]) (by simp [hc])]
  · intro s hall
    unfold cleanName splitFirst
    rw [takeWhile_all _ _ (fun x hx => by simp [hall x hx])]

/-- Witness for C2 at the specifier `"requests>=2.0"`. -/
theorem C2_witness : cleanName "requests>=2.0" = pyStrip "requests" :=
  (C2_cleanName_before_first_operator).1 "requests>=2.0"
    "requests".data "=2.0".data '>' (by decide) (by decide) (by decide)

theorem pyStrip_ne_empty_of_nonws (s : String) (w r : List Char) (c : Char)
    (hdec : s.data = w ++ c :: r) (hw : ∀ x ∈ w, isWsChar x = true)
    (hc : isWsChar c = false) : pyStrip s ≠ "" := by
  intro h
  have hdata : stripChars s.data = [] := by
    have h2 := congrArg String.data h
    simpa [pyStrip] using h2
  rw [hdec] at hdata
  unfold stripChars at hdata
  rw [dropWhile_all_append _ w _ hw, List.dropWhile] at hdata
  simp only [hc] at hdata
  rw [List.reverse_eq_nil_iff, List.dropWhile_eq_nil_iff] at hdata
  have hcw : isWsChar c = true := by
    simpa using hdata c (by simp)
  rw [hc] at hcw
  exact Bool.false_ne_true hcw

/-- **C10.** A non-blank specifier whose first non-whitespace character
is a version operator (for example `">=1.0"`) passes the non-blank
filter, cleans to the empty string, and contributes the empty string to
the result of `get_project_dependencies`; a blank (whitespace-only)
specifier is dropped entirely. -/
theorem C10_operator_first_specifiers :
    (∀ (s : String) (w r : List Char) (c : Char),
      s.data = w ++ c :: r →
      (∀ x ∈ w, isWsChar x = true) →
      isOpChar c = true →
      cleanName s = "" ∧ pyStrip s ≠ "" ∧
      get_project_dependencies
        (.ok [("project", .table [("dependencies", .arr [.str s])])]) =
        .ok [""]) ∧
    (∀ t : String, pyStrip t = "" →
      get_project_dependencies
        (.ok [("project", .table [("dependencies", .arr [.str t])])]) =
        .ok []) := by
  constructor
  · intro s w r c hdec hw hc
    have hclean : cleanName s = "" := by
      unfold cleanName splitFirst
      rw [hdec, takeWhile_append_stop _ w _ c
        (fun x hx => by simp [ws_not_op x (hw x hx)]) (by simp [hc])]
      show String.mk (stripChars w) = ""
      rw [stripChars_all_ws w hw]
    have hne : pyStrip s ≠ "" :=
      pyStrip_ne_empty_of_nonws s w r c hdec hw (op_not_ws c hc)
    refine ⟨hclean, hne, ?_⟩
    have hcd : cleanDeps [.str s] = .ok [cleanName s] := by
      show (if pyStrip s = "" then (Except.ok [] : Except PyErr (List String))
        else .ok [cleanName s]) = .ok [cleanName s]
      rw [if_neg hne]
    have h0 : get_project_dependencies
        (.ok [("project", .table [("dependencies", .arr [.str s])])]) =
        cleanDeps [.str s] >>= fun cleaned => pure cleaned.dedup := rfl
    rw [h0, hcd, hclean]
    rfl
  · intro t ht
    have hcd : cleanDeps [.str t] = .ok [] := by
      show (if pyStrip t = "" then (Except.ok [] : Except PyErr (List String))
        else .ok [cleanName t]) = .ok []
      rw [if_pos ht]
    have h0 : get_project_dependencies
        (.ok [("project", .table [("dependencies", .arr [.str t])])]) =
        cleanDeps [.str t] >>= fun cleaned => pure cleaned.dedup := rfl
    rw [h0, hcd]
    rfl

/-- Witness for C10 at the specifiers `">=1.0"` and `"  "`. -/
theorem C10_witness :
    cleanName ">=1.0" = "" ∧
    get_project_dependencies
      (.ok [("project", .table [("dependencies", .arr [.str ">=1.0"])])]) =
      .ok [""] ∧
    get_project_dependencies
      (.ok [("project", .table [("dependencies", .arr [.str "  "])])]) =
      .ok [] := by
  obtain ⟨h1, -, h3⟩ := (C10_operator_first_specifiers).1 ">=1.0"
    [] "=1.0".data '>' (by decide) (by simp) (by decide)
  exact ⟨h1, h3, (C10_operator_first_specifiers).2 "  " (by decide)⟩

theorem get_project_dependencies_nodup (r : ReadResult) (res : List String)
    (h : get_project_dependencies r = .ok res) : res.Nodup := by
  cases r with
  | missing => cases h; exact List.nodup_nil
  | parseError => cases h; exact List.nodup_nil
  | ok data =>
    rw [show get_project_dependencies (.ok data) =
      collect_dependencies data >>= fun cleaned => pure cleaned.dedup from rfl] at h
    cases hc : collect_dependencies data with
    | error e =>
      rw [hc] at h
      exact Except.noConfusion (show Except.error e = Except.ok res from h)
    | ok c =>
      rw [hc] at h
      have h2 : Except.ok c.dedup = Except.ok res := h
      injection h2 with h3
      rw [← h3]
      exact List.nodup_dedup c

/-- **C3.** `get_project_dependencies` returns a duplicate-free list
whose element set, on the marker data
`dependencies = ["a>=1.0", "b"]`,
`optional-dependencies = {dev: ["a>=1.0", "c~=2"]}`,
is exactly `{"a", "b", "c"}`: duplicates across the main list and all
optional groups collapse, and order is irrelevant. -/
theorem C3_dependencies_collected_cleaned_deduplicated :
    (∀ r res, get_project_dependencies r = .ok res → res.Nodup) ∧
    (∃ l, get_project_dependencies (.ok [("project", .table
        [("dependencies", .arr [.str "a>=1.0", .str "b"]),
         ("optional-dependencies", .table
           [("dev", .arr [.str "a>=1.0", .str "c~=2"])])])]) = .ok l ∧
      l.toFinset = {"a", "b", "c"}) :=
  ⟨fun r res h => get_project_dependencies_nodup r res h,
   ⟨["b", "a", "c"], rfl, by decide⟩⟩

/-- Witness for C3's universally quantified part, at the missing-file
state. -/
theorem C3_witness : ([] : List String).Nodup :=
  (C3_dependencies_collected_cleaned_deduplicated).1 .missing [] rfl

/-- **C6, counterexample.** Valid TOML that binds `project` to the
integer `5` is "malformed structured data" in the claim's sense, yet
`get_project_name` raises `AttributeError` (from `(5).get("name")`) and
`get_project_dependencies` raises `TypeError` (from
`"dependencies" in 5`) — neither is caught by the
`except (TOMLDecodeError, FileNotFoundError)` handler, so the claim that
they "never raise" is false. -/
theorem C6_counterexample :
    get_project_name (.ok [("project", .int 5)]) = .error .attributeError ∧
    get_project_dependencies (.ok [("project", .int 5)]) = .error .typeError :=
  ⟨rfl, rfl⟩

theorem tableGet_none_any (t : TomlTable) (k : String) (h : tableGet t k = none) :
    t.any (fun kv => kv.1 == k) = false := by
  unfold tableGet at h
  rw [Option.map_eq_none'] at h
  rw [List.find?_eq_none] at h
  rw [List.any_eq_false]
  intro x hx
  simpa using h x hx

/-- **C6, amended.** For a missing marker file, unparseable content, a
missing `project` table, or a `project` table lacking the
`name`/`dependencies`/`optional-dependencies` keys, `get_project_name`
returns an absent value and `get_project_dependencies` returns the empty
collection, without raising; structurally ill-typed data (such as
`project` bound to a non-table, see the counterexample) instead raises
an uncaught error to the caller. -/
theorem C6_silent_degradation_on_enumerated_states :
    (get_project_name .missing = .ok none ∧
     get_project_dependencies .missing = .ok [] ∧
     get_project_name .parseError = .ok none ∧
     get_project_dependencies .parseError = .ok []) ∧
    (∀ data : TomlTable, tableGet data "project" = none →
      get_project_name (.ok data) = .ok none ∧
      get_project_dependencies (.ok data) = .ok []) ∧
    (∀ (data t : TomlTable),
      tableGet data "project" = some (.table t) →
      tableGet t "name" = none →
      tableGet t "dependencies" = none →
      tableGet t "optional-dependencies" = none →
      get_project_name (.ok data) = .ok none ∧
      get_project_dependencies (.ok data) = .ok []) := by
  refine ⟨⟨rfl, rfl, rfl, rfl⟩, ?_, ?_⟩
  · intro data h
    constructor
    · simp [get_project_name, h]
    · have hc : collect_dependencies data = .ok [] := by
        unfold collect_dependencies
        rw [h]
        rfl
      rw [show get_project_dependencies (.ok data) =
        collect_dependencies data >>= fun cleaned => pure cleaned.dedup from rfl,
        hc]
      rfl
  · intro data t hproj hname hdep hopt
    have hd : (t.any fun kv => kv.1 == "dependencies") = false :=
      tableGet_none_any t _ hdep
    have ho : (t.any fun kv => kv.1 == "optional-dependencies") = false :=
      tableGet_none_any t _ hopt
    constructor
    · simp [get_project_name, hproj, hname]
    · have hc : collect_dependencies data = .ok [] := by
        unfold collect_dependencies
        rw [hproj]
        simp [pyContains, hd, ho, cleanDeps, Bind.bind, Except.bind,
          pure, Except.pure]
      rw [show get_project_dependencies (.ok data) =
        collect_dependencies data >>= fun cleaned => pure cleaned.dedup from rfl,
        hc]
      rfl

/-- Witness for C6's amended statement at the data `{project = {}}`. -/
theorem C6_witness :
    get_project_name (.ok [("project", .table [])]) = .ok none ∧
    get_project_dependencies (.ok [("project", .table [])]) = .ok [] :=
  (C6_silent_degradation_on_enumerated_states).2.2 [("project", .table [])] []
    rfl rfl rfl rfl
